import Mathlib

/-!
Shallow embedding of `pyvo/dal/mixin.py` (VOSI mixins): `VOSITables`,
`AvailabilityMixin`, `CapabilityMixin`, `TablesMixin`.

Network I/O is modelled by an oracle `net : String → TransportResult α`
mapping a requested URL to either a parsed document (2xx response, already
run through the external `vosi` parser) or a transport failure
(`requests.RequestException`, carrying a description of the exception).
Each stateful operation returns its result, the updated object state, and
the list of URLs it requested, in order.
-/

set_option autoImplicit false

namespace PyvoDal

/-- Outcome of one HTTP GET: `success` is a 2xx response whose body parses to
`α`; `failure` is a `requests.RequestException` (connection error or the
non-2xx raised by `raise_for_status`), carrying its description. -/
inductive TransportResult (α : Type) where
  | success (v : α)
  | failure (ex : String)
  deriving DecidableEq, Repr

/-- Errors surfaced by the mixins: `fromExcept` is
`DALServiceError.from_except(ex, url)`; `serviceMsg` is `DALServiceError(msg)`;
`lookupError` is the external table-set lookup failure for an undeclared name;
`emptyDoc` is the external `get_first_table` failure on a table-less document. -/
inductive VOSIError where
  | fromExcept (ex : String) (url : String)
  | serviceMsg (msg : String)
  | lookupError (name : String)
  | emptyDoc (url : String)
  deriving DecidableEq, Repr

/-- A table description from a VOSI tables document: a name plus the column
and foreign-key summaries (only their emptiness matters to the mixin code). -/
structure VOSITable where
  name : String
  columns : List String
  foreignkeys : List String
  deriving DecidableEq, Repr

/-- A parsed VOSI tables document (the external `vosi` table-set object). -/
structure TableSet where
  tables : List VOSITable
  deriving DecidableEq, Repr

/-- Modelled from the spec: the external table-set's `ntables` is the number
of tables declared in the set ("the set's own count"). -/
def TableSet.ntables (ts : TableSet) : Nat :=
  ts.tables.length

/-- Modelled from the spec: the external `get_table_by_name` returns the
declared summary for `name`, failing when `name` is not among the declared
tables. -/
def TableSet.get_table_by_name (ts : TableSet) (name : String) : Option VOSITable :=
  ts.tables.find? (fun t => t.name = name)

/-- Modelled from the spec: the external `iter_tables` yields the declared
tables in the table-set's declared order. -/
def TableSet.iter_tables (ts : TableSet) : List VOSITable :=
  ts.tables

/-- Modelled from the spec: the external `get_first_table` extracts the one
table of a single-table document. -/
def TableSet.get_first_table (ts : TableSet) : Option VOSITable :=
  ts.tables.head?

/-- An `interfaces` access URL record of a capability (external `vosi` model). -/
structure AccessURL where
  value : String
  deriving DecidableEq, Repr

/-- A capability interface, holding its access URLs (external `vosi` model). -/
structure Interface where
  accessurls : List AccessURL
  deriving DecidableEq, Repr

/-- A capability record: a standard-id URI and its interfaces. -/
structure Capability where
  standardid : String
  interfaces : List Interface
  deriving DecidableEq, Repr

/-- A parsed VOSI availability document. -/
structure Availability where
  available : Bool
  upsince : Option String
  deriving DecidableEq, Repr

/-- Prefix test on character lists (Python `str.startswith`, first list the
candidate prefix). -/
def isPrefixL : List Char → List Char → Bool
  | [], _ => true
  | _ :: _, [] => false
  | p :: ps, c :: cs => if p = c then isPrefixL ps cs else false

/-- Python `str.startswith`: does `s` start with `pre`? -/
def strStartsWith (s pre : String) : Bool :=
  isPrefixL pre.toList s.toList

/-- Drop the final path segment of a reversed character list, keeping the
separating slash (helper for `url_sibling`). -/
def dropSegRev : List Char → List Char
  | [] => []
  | c :: rest => if c = '/' then c :: rest else dropSegRev rest

/-- Modelled from the spec: `pyvo.utils.url.url_sibling` replaces the final
path segment of a URL with a new literal segment. -/
def url_sibling (url : String) (newname : String) : String :=
  String.mk ((dropSegRev url.toList.reverse).reverse ++ newname.toList)

/-- Python dict membership test plus subscript: first binding for the key. -/
def cacheLookup (c : List (String × VOSITable)) (k : String) : Option VOSITable :=
  match c with
  | [] => none
  | (k1, v) :: rest => if k1 = k then some v else cacheLookup rest k

/-- Python dict assignment `c[k] = v`: overwrite in place when `k` is bound,
append otherwise. -/
def cacheInsert (c : List (String × VOSITable)) (k : String) (v : VOSITable) :
    List (String × VOSITable) :=
  match c with
  | [] => [(k, v)]
  | (k1, v1) :: rest =>
    if k1 = k then (k1, v) :: rest else (k1, v1) :: cacheInsert rest k v

/-- State of a `VOSITables` instance: the parsed table-set, the endpoint URL
it was fetched from, and the per-instance hydration cache. -/
structure VOSITables where
  vositables : TableSet
  endpoint_url : String
  cache : List (String × VOSITable)
  deriving DecidableEq, Repr

namespace VOSITables

/-- Transcription of `VOSITables._get_table` (also `__getitem__`): serve from
the cache; otherwise take the declared summary; if the summary has no columns
and no foreign keys, GET `{endpoint_url}/{name}`, parse as a single-table
document, cache and return the extracted table; otherwise return the summary. -/
def get_table (net : String → TransportResult TableSet) (s : VOSITables)
    (name : String) :
    Except VOSIError VOSITable × VOSITables × List String :=
  match cacheLookup s.cache name with
  | some t => (.ok t, s, [])
  | none =>
    match s.vositables.get_table_by_name name with
    | none => (.error (.lookupError name), s, [])
    | some table =>
      if table.columns.isEmpty && table.foreignkeys.isEmpty then
        let tables_url := s.endpoint_url ++ "/" ++ name
        match net tables_url with
        | .failure ex => (.error (.fromExcept ex tables_url), s, [tables_url])
        | .success doc =>
          match doc.get_first_table with
          | none => (.error (.emptyDoc tables_url), s, [tables_url])
          | some t =>
            (.ok t, { s with cache := cacheInsert s.cache name t }, [tables_url])
      else
        (.ok table, s, [])

/-- Transcription of `VOSITables.__len__`: the table-set's own count. -/
def len (s : VOSITables) : Nat :=
  s.vositables.ntables

/-- The generator loop of `VOSITables.keys`: yield each table's name. -/
def keysLoop : List VOSITable → List String
  | [] => []
  | t :: rest => t.name :: keysLoop rest

/-- Transcription of `VOSITables.keys` (also `__iter__`): iterate over
`iter_tables`, yielding names. A pure read of the table-set: by its type it
can neither request a URL nor touch the cache, and each call restarts. -/
def keys (s : VOSITables) : List String :=
  keysLoop s.vositables.iter_tables

/-- The generator loop of `VOSITables.values`: `_get_table` for each name in
turn, threading the cache and accumulating requested URLs; a failure stops
the generator at that point. -/
def valuesLoop (net : String → TransportResult TableSet) (s : VOSITables) :
    List String → Except VOSIError (List VOSITable) × VOSITables × List String
  | [] => (.ok [], s, [])
  | n :: rest =>
    match get_table net s n with
    | (.error e, s1, log) => (.error e, s1, log)
    | (.ok t, s1, log) =>
      match valuesLoop net s1 rest with
      | (.error e, s2, log2) => (.error e, s2, log ++ log2)
      | (.ok ts, s2, log2) => (.ok (t :: ts), s2, log ++ log2)

/-- Transcription of `VOSITables.values`: hydrate each declared name. -/
def values (net : String → TransportResult TableSet) (s : VOSITables) :
    Except VOSIError (List VOSITable) × VOSITables × List String :=
  valuesLoop net s (keys s)

/-- The generator loop of `VOSITables.items`: `(name, _get_table(name))`. -/
def itemsLoop (net : String → TransportResult TableSet) (s : VOSITables) :
    List String →
      Except VOSIError (List (String × VOSITable)) × VOSITables × List String
  | [] => (.ok [], s, [])
  | n :: rest =>
    match get_table net s n with
    | (.error e, s1, log) => (.error e, s1, log)
    | (.ok t, s1, log) =>
      match itemsLoop net s1 rest with
      | (.error e, s2, log2) => (.error e, s2, log ++ log2)
      | (.ok ps, s2, log2) => (.ok ((n, t) :: ps), s2, log ++ log2)

/-- Transcription of `VOSITables.items`. -/
def items (net : String → TransportResult TableSet) (s : VOSITables) :
    Except VOSIError (List (String × VOSITable)) × VOSITables × List String :=
  itemsLoop net s (keys s)

/-- One public `VOSITables` operation, for frame reasoning over call
sequences. -/
inductive TOp where
  | lookup (name : String)
  | keysOp
  | valuesOp
  | itemsOp

/-- The state left behind by one operation. -/
def runOp (net : String → TransportResult TableSet) (s : VOSITables) :
    TOp → VOSITables
  | .lookup n => (get_table net s n).2.1
  | .keysOp => s
  | .valuesOp => (values net s).2.1
  | .itemsOp => (items net s).2.1

/-- The state left behind by a sequence of operations. -/
def runOps (net : String → TransportResult TableSet) (s : VOSITables) :
    List TOp → VOSITables
  | [] => s
  | op :: rest => runOps net (runOp net s op) rest

end VOSITables

/-- State of an `AvailabilityMixin` instance: the base URL and the manual
memoization field `_availability` (class default `None`). -/
structure AvailabilityMixin where
  baseurl : String
  availability_cache : Option Availability
  deriving DecidableEq, Repr

namespace AvailabilityMixin

/-- Transcription of the `availability` property: when `_availability` is
unset, GET `{baseurl}/availability`; a transport failure is wrapped as
`DALServiceError.from_except(ex, avail_url)` and raised before the field is
set; on success parse, memoize and return. -/
def availability (net : String → TransportResult Availability)
    (s : AvailabilityMixin) :
    Except VOSIError Availability × AvailabilityMixin × List String :=
  match s.availability_cache with
  | some a => (.ok a, s, [])
  | none =>
    let avail_url := s.baseurl ++ "/availability"
    match net avail_url with
    | .failure ex => (.error (.fromExcept ex avail_url), s, [avail_url])
    | .success a => (.ok a, { s with availability_cache := some a }, [avail_url])

/-- Transcription of the `available` property. -/
def available (net : String → TransportResult Availability)
    (s : AvailabilityMixin) :
    Except VOSIError Bool × AvailabilityMixin × List String :=
  match availability net s with
  | (.error e, s1, log) => (.error e, s1, log)
  | (.ok a, s1, log) => (.ok a.available, s1, log)

end AvailabilityMixin

/-- The `for capa_url in capa_urls: try GET / break on success / continue on
RequestException` loop shared by `capabilities` and `tables`: returns the
first successfully fetched document with the URL that produced it (`none`
when the candidate list is exhausted), plus the URLs requested, in order. -/
def tryUrls {α : Type} (net : String → TransportResult α) :
    List String → Option (α × String) × List String
  | [] => (none, [])
  | u :: rest =>
    match net u with
    | .success v => (some (v, u), [u])
    | .failure _ =>
      match tryUrls net rest with
      | (r, log) => (r, u :: log)

/-- State of a `CapabilityMixin` instance: the base URL and the
`@lazyproperty` cache cell for `capabilities` (unset until the first
successful computation; a raising access leaves it unset). -/
structure CapabilityMixin where
  baseurl : String
  capabilities_cache : Option (List Capability)
  deriving DecidableEq, Repr

namespace CapabilityMixin

/-- Transcription of the `capabilities` lazyproperty body: try
`{baseurl}/capabilities` then `url_sibling(baseurl, 'capabilities')`,
suppressing `RequestException`s; when both fail raise
`DALServiceError("No working capabilities endpoint provided")`; otherwise
parse the successful response and memoize. -/
def capabilities (net : String → TransportResult (List Capability))
    (s : CapabilityMixin) :
    Except VOSIError (List Capability) × CapabilityMixin × List String :=
  match s.capabilities_cache with
  | some caps => (.ok caps, s, [])
  | none =>
    let capa_urls := [s.baseurl ++ "/capabilities", url_sibling s.baseurl "capabilities"]
    match tryUrls net capa_urls with
    | (none, log) =>
      (.error (.serviceMsg "No working capabilities endpoint provided"), s, log)
    | (some (caps, _), log) =>
      (.ok caps, { s with capabilities_cache := some caps }, log)

end CapabilityMixin

/-- The `next(_ for _ in self.capabilities if _.standardid.startswith(...))`
search of `TablesMixin.tables`: the first capability whose standard-id starts
with the VOSI tables prefix, or `StopIteration` (`none`). -/
def findTablesCapability : List Capability → Option Capability
  | [] => none
  | c :: rest =>
    if strStartsWith c.standardid "ivo://ivoa.net/std/VOSI#tables" then some c
    else findTablesCapability rest

/-- The `chain.from_iterable(_.accessurls for _ in interfaces)` of
`TablesMixin.tables`: all access URLs of all interfaces, in declared order. -/
def chainAccessurls : List Interface → List AccessURL
  | [] => []
  | i :: rest => i.accessurls ++ chainAccessurls rest

/-- The candidate tables-endpoint URLs of `TablesMixin.tables`: the access-url
values of the first VOSI-tables capability when one exists, else the
`{baseurl}/tables` / sibling-path convention pair. -/
def tablesCandidates (caps : List Capability) (baseurl : String) : List String :=
  match findTablesCapability caps with
  | some cap => (chainAccessurls cap.interfaces).map AccessURL.value
  | none => [baseurl ++ "/tables", url_sibling baseurl "tables"]

/-- State of a `TablesMixin` instance: the base URL, the inherited
`CapabilityMixin` cache cell, and the `@lazyproperty` cell for `tables`. -/
structure TablesMixin where
  baseurl : String
  capabilities_cache : Option (List Capability)
  tables_cache : Option VOSITables
  deriving DecidableEq, Repr

namespace TablesMixin

/-- Transcription of the `tables` lazyproperty body: read `self.capabilities`
(fetching and memoizing it if unset; its `DALServiceError` propagates),
build the candidate URL list, try the candidates in order suppressing
`RequestException`s; on exhaustion raise
`DALServiceError("No working tables endpoint provided")`; on success parse
the table-set and memoize `VOSITables(table_set, tables_url)`. -/
def tables (netc : String → TransportResult (List Capability))
    (nett : String → TransportResult TableSet) (s : TablesMixin) :
    Except VOSIError VOSITables × TablesMixin × List String :=
  match s.tables_cache with
  | some v => (.ok v, s, [])
  | none =>
    match CapabilityMixin.capabilities netc ⟨s.baseurl, s.capabilities_cache⟩ with
    | (.error e, cs, log) =>
      (.error e, { s with capabilities_cache := cs.capabilities_cache }, log)
    | (.ok caps, cs, log) =>
      let s1 : TablesMixin := { s with capabilities_cache := cs.capabilities_cache }
      match tryUrls nett (tablesCandidates caps s.baseurl) with
      | (none, log2) =>
        (.error (.serviceMsg "No working tables endpoint provided"), s1, log ++ log2)
      | (some (ts, tables_url), log2) =>
        let v : VOSITables := ⟨ts, tables_url, []⟩
        (.ok v, { s1 with tables_cache := some v }, log ++ log2)

end TablesMixin

/-- Repeated access to a memoized accessor: the list of results of `n`
successive calls, the final state, and all URLs requested across them. -/
def accessRepeat {σ α : Type} (f : σ → Except VOSIError α × σ × List String)
    (s : σ) : Nat → List (Except VOSIError α) × σ × List String
  | 0 => ([], s, [])
  | n + 1 =>
    match f s with
    | (r, s1, log) =>
      match accessRepeat f s1 n with
      | (rs, s2, logs) => (r :: rs, s2, log ++ logs)

/-! ## Helper lemmas -/

theorem cacheLookup_insert_self (c : List (String × VOSITable)) (k : String)
    (v : VOSITable) : cacheLookup (cacheInsert c k v) k = some v := by
  induction c with
  | nil => simp [cacheInsert, cacheLookup]
  | cons p rest ih =>
    by_cases h : p.1 = k
    · simp [cacheInsert, cacheLookup, h]
    · simp [cacheInsert, cacheLookup, h, ih]

theorem keysLoop_eq_map (l : List VOSITable) :
    VOSITables.keysLoop l = l.map VOSITable.name := by
  induction l with
  | nil => rfl
  | cons t rest ih => simp [VOSITables.keysLoop, ih]

theorem findTablesCapability_eq_find (caps : List Capability) :
    findTablesCapability caps =
      caps.find? (fun c => strStartsWith c.standardid "ivo://ivoa.net/std/VOSI#tables") := by
  induction caps with
  | nil => rfl
  | cons c rest ih =>
    by_cases h : strStartsWith c.standardid "ivo://ivoa.net/std/VOSI#tables"
    · simp [findTablesCapability, List.find?, h]
    · simp [findTablesCapability, List.find?, h, ih]

theorem chainAccessurls_eq_join (l : List Interface) :
    chainAccessurls l = (l.map Interface.accessurls).flatten := by
  induction l with
  | nil => rfl
  | cons i rest ih => simp [chainAccessurls, ih]

theorem get_table_vositables (net : String → TransportResult TableSet)
    (s : VOSITables) (name : String) :
    ((VOSITables.get_table net s name).2.1).vositables = s.vositables := by
  unfold VOSITables.get_table
  dsimp only
  repeat' split
  all_goals rfl

theorem valuesLoop_vositables (net : String → TransportResult TableSet)
    (ns : List String) (s : VOSITables) :
    ((VOSITables.valuesLoop net s ns).2.1).vositables = s.vositables := by
  induction ns generalizing s with
  | nil => rfl
  | cons n rest ih =>
    unfold VOSITables.valuesLoop
    rcases hg : VOSITables.get_table net s n with ⟨r, s1, log⟩
    have hs1 : s1.vositables = s.vositables := by
      have h2 := get_table_vositables net s n
      rw [hg] at h2
      exact h2
    cases r with
    | error e => simpa [hg] using hs1
    | ok t =>
      rcases hv : VOSITables.valuesLoop net s1 rest with ⟨r2, s2, log2⟩
      have hs2 : s2.vositables = s1.vositables := by
        have h2 := ih s1
        rw [hv] at h2
        exact h2
      cases r2 <;> simpa [hg, hv] using hs2.trans hs1

theorem itemsLoop_vositables (net : String → TransportResult TableSet)
    (ns : List String) (s : VOSITables) :
    ((VOSITables.itemsLoop net s ns).2.1).vositables = s.vositables := by
  induction ns generalizing s with
  | nil => rfl
  | cons n rest ih =>
    unfold VOSITables.itemsLoop
    rcases hg : VOSITables.get_table net s n with ⟨r, s1, log⟩
    have hs1 : s1.vositables = s.vositables := by
      have h2 := get_table_vositables net s n
      rw [hg] at h2
      exact h2
    cases r with
    | error e => simpa [hg] using hs1
    | ok t =>
      rcases hv : VOSITables.itemsLoop net s1 rest with ⟨r2, s2, log2⟩
      have hs2 : s2.vositables = s1.vositables := by
        have h2 := ih s1
        rw [hv] at h2
        exact h2
      cases r2 <;> simpa [hg, hv] using hs2.trans hs1

theorem runOp_vositables (net : String → TransportResult TableSet)
    (s : VOSITables) (op : VOSITables.TOp) :
    ((VOSITables.runOp net s op).vositables) = s.vositables := by
  cases op with
  | lookup n => exact get_table_vositables net s n
  | keysOp => rfl
  | valuesOp => exact valuesLoop_vositables net (VOSITables.keys s) s
  | itemsOp => exact itemsLoop_vositables net (VOSITables.keys s) s

theorem runOps_vositables (net : String → TransportResult TableSet)
    (ops : List VOSITables.TOp) (s : VOSITables) :
    ((VOSITables.runOps net s ops).vositables) = s.vositables := by
  induction ops generalizing s with
  | nil => rfl
  | cons op rest ih =>
    unfold VOSITables.runOps
    exact (ih (VOSITables.runOp net s op)).trans (runOp_vositables net s op)

theorem accessRepeat_fixpoint {σ α : Type}
    (f : σ → Except VOSIError α × σ × List String) (s : σ) (a : α)
    (h : f s = (.ok a, s, [])) (n : Nat) :
    accessRepeat f s n = (List.replicate n (.ok a), s, []) := by
  induction n with
  | zero => rfl
  | succ n ih =>
    unfold accessRepeat
    rw [h]
    simp [ih, List.replicate_succ]

theorem availability_ok_sets_cache (net : String → TransportResult Availability)
    (s : AvailabilityMixin) (a : Availability) (s1 : AvailabilityMixin)
    (log : List String)
    (h : AvailabilityMixin.availability net s = (.ok a, s1, log)) :
    s1.availability_cache = some a := by
  unfold AvailabilityMixin.availability at h
  cases hc : s.availability_cache with
  | some a0 =>
    rw [hc] at h
    simp only [Prod.mk.injEq, Except.ok.injEq] at h
    obtain ⟨h1, h2, _⟩ := h
    rw [← h2, hc, h1]
  | none =>
    rw [hc] at h
    dsimp only at h
    cases hn : net (s.baseurl ++ "/availability") with
    | failure ex =>
      rw [hn] at h
      simp at h
    | success a0 =>
      rw [hn] at h
      simp only [Prod.mk.injEq, Except.ok.injEq] at h
      obtain ⟨h1, h2, _⟩ := h
      rw [← h2, h1]

theorem availability_ok_idem (net net2 : String → TransportResult Availability)
    (s : AvailabilityMixin) (a : Availability) (s1 : AvailabilityMixin)
    (log : List String)
    (h : AvailabilityMixin.availability net s = (.ok a, s1, log)) :
    AvailabilityMixin.availability net2 s1 = (.ok a, s1, []) := by
  have hc := availability_ok_sets_cache net s a s1 log h
  unfold AvailabilityMixin.availability
  rw [hc]

theorem capabilities_ok_sets_cache
    (net : String → TransportResult (List Capability)) (s : CapabilityMixin)
    (caps : List Capability) (s1 : CapabilityMixin) (log : List String)
    (h : CapabilityMixin.capabilities net s = (.ok caps, s1, log)) :
    s1.capabilities_cache = some caps := by
  unfold CapabilityMixin.capabilities at h
  cases hc : s.capabilities_cache with
  | some caps0 =>
    rw [hc] at h
    simp only [Prod.mk.injEq, Except.ok.injEq] at h
    obtain ⟨h1, h2, _⟩ := h
    rw [← h2, hc, h1]
  | none =>
    rw [hc] at h
    dsimp only at h
    rcases ht : tryUrls net [s.baseurl ++ "/capabilities", url_sibling s.baseurl "capabilities"]
      with ⟨r, tlog⟩
    rw [ht] at h
    cases r with
    | none => simp at h
    | some p =>
      simp only [Prod.mk.injEq, Except.ok.injEq] at h
      obtain ⟨h1, h2, _⟩ := h
      rw [← h2, h1]

theorem capabilities_ok_idem
    (net net2 : String → TransportResult (List Capability)) (s : CapabilityMixin)
    (caps : List Capability) (s1 : CapabilityMixin) (log : List String)
    (h : CapabilityMixin.capabilities net s = (.ok caps, s1, log)) :
    CapabilityMixin.capabilities net2 s1 = (.ok caps, s1, []) := by
  have hc := capabilities_ok_sets_cache net s caps s1 log h
  unfold CapabilityMixin.capabilities
  rw [hc]

theorem tables_ok_sets_cache (netc : String → TransportResult (List Capability))
    (nett : String → TransportResult TableSet) (s : TablesMixin)
    (v : VOSITables) (s1 : TablesMixin) (log : List String)
    (h : TablesMixin.tables netc nett s = (.ok v, s1, log)) :
    s1.tables_cache = some v := by
  unfold TablesMixin.tables at h
  cases hc : s.tables_cache with
  | some v0 =>
    rw [hc] at h
    simp only [Prod.mk.injEq, Except.ok.injEq] at h
    obtain ⟨h1, h2, _⟩ := h
    rw [← h2, hc, h1]
  | none =>
    rw [hc] at h
    dsimp only at h
    rcases hcap : CapabilityMixin.capabilities netc ⟨s.baseurl, s.capabilities_cache⟩
      with ⟨r, cs, clog⟩
    rw [hcap] at h
    cases r with
    | error e => simp at h
    | ok caps =>
      dsimp only at h
      rcases ht : tryUrls nett (tablesCandidates caps s.baseurl) with ⟨r2, tlog⟩
      rw [ht] at h
      cases r2 with
      | none => simp at h
      | some p =>
        simp only [Prod.mk.injEq, Except.ok.injEq] at h
        obtain ⟨h1, h2, _⟩ := h
        rw [← h2, h1]

theorem tables_ok_idem (netc netc2 : String → TransportResult (List Capability))
    (nett nett2 : String → TransportResult TableSet) (s : TablesMixin)
    (v : VOSITables) (s1 : TablesMixin) (log : List String)
    (h : TablesMixin.tables netc nett s = (.ok v, s1, log)) :
    TablesMixin.tables netc2 nett2 s1 = (.ok v, s1, []) := by
  have hc := tables_ok_sets_cache netc nett s v s1 log h
  unfold TablesMixin.tables
  rw [hc]

theorem availability_uncached_failure
    (net : String → TransportResult Availability) (s : AvailabilityMixin)
    (ex : String) (hc : s.availability_cache = none)
    (hn : net (s.baseurl ++ "/availability") = .failure ex) :
    AvailabilityMixin.availability net s =
      (.error (.fromExcept ex (s.baseurl ++ "/availability")), s,
        [s.baseurl ++ "/availability"]) := by
  unfold AvailabilityMixin.availability
  rw [hc]
  dsimp only
  rw [hn]

theorem availability_uncached_success
    (net : String → TransportResult Availability) (s : AvailabilityMixin)
    (a : Availability) (hc : s.availability_cache = none)
    (hn : net (s.baseurl ++ "/availability") = .success a) :
    AvailabilityMixin.availability net s =
      (.ok a, { s with availability_cache := some a },
        [s.baseurl ++ "/availability"]) := by
  unfold AvailabilityMixin.availability
  rw [hc]
  dsimp only
  rw [hn]

theorem get_table_shallow_failure (net : String → TransportResult TableSet)
    (s : VOSITables) (name : String) (table : VOSITable) (ex : String)
    (hc : cacheLookup s.cache name = none)
    (ht : s.vositables.get_table_by_name name = some table)
    (hcols : table.columns = []) (hfks : table.foreignkeys = [])
    (hn : net (s.endpoint_url ++ "/" ++ name) = .failure ex) :
    VOSITables.get_table net s name =
      (.error (.fromExcept ex (s.endpoint_url ++ "/" ++ name)), s,
        [s.endpoint_url ++ "/" ++ name]) := by
  unfold VOSITables.get_table
  rw [hc, ht]
  dsimp only
  rw [hcols, hfks]
  simp only [List.isEmpty_nil, Bool.and_self, if_true]
  rw [hn]

theorem get_table_shallow_success (net : String → TransportResult TableSet)
    (s : VOSITables) (name : String) (table t : VOSITable) (doc : TableSet)
    (hc : cacheLookup s.cache name = none)
    (ht : s.vositables.get_table_by_name name = some table)
    (hcols : table.columns = []) (hfks : table.foreignkeys = [])
    (hn : net (s.endpoint_url ++ "/" ++ name) = .success doc)
    (hfirst : doc.get_first_table = some t) :
    VOSITables.get_table net s name =
      (.ok t, { s with cache := cacheInsert s.cache name t },
        [s.endpoint_url ++ "/" ++ name]) := by
  unfold VOSITables.get_table
  rw [hc, ht]
  dsimp only
  rw [hcols, hfks]
  simp only [List.isEmpty_nil, Bool.and_self, if_true]
  rw [hn]
  dsimp only
  rw [hfirst]

/-! ## Concrete instances used by counterexamples and witnesses -/

/-- A declared table whose summary already has a column. -/
def exTableFull : VOSITable := ⟨"obscore", ["ra"], []⟩

/-- A `VOSITables` over a one-table set with a complete summary, empty cache. -/
def exVTFull : VOSITables := ⟨⟨[exTableFull]⟩, "http://example.org/tap/tables", []⟩

/-- A network oracle on which every request fails. -/
def exNetDown : String → TransportResult TableSet :=
  fun _ => .failure "connection refused"

/-- A declared table whose summary has no columns and no foreign keys. -/
def exTableShallow : VOSITable := ⟨"obscore", [], []⟩

/-- The hydrated form of `exTableShallow`. -/
def exTableHydrated : VOSITable := ⟨"obscore", ["ra", "dec"], ["fk1"]⟩

/-- A `VOSITables` over a one-table set with a shallow summary, empty cache. -/
def exVTShallow : VOSITables :=
  ⟨⟨[exTableShallow]⟩, "http://example.org/tap/tables", []⟩

/-- A network oracle serving the single-table hydration document for
`exTableShallow` at its per-table URL. -/
def exNetHydrate : String → TransportResult TableSet :=
  fun u =>
    if u = "http://example.org/tap/tables/obscore" then
      .success ⟨[exTableHydrated]⟩
    else
      .failure "404 Client Error"

/-- A `VOSITables` over a three-table set of distinct shallow summaries. -/
def exVT3 : VOSITables :=
  ⟨⟨[⟨"a", [], []⟩, ⟨"b", [], []⟩, ⟨"c", [], []⟩]⟩, "http://example.org/tables", []⟩

/-! ## Claim theorems -/

/-- C1 counterexample: for the instance `exVTFull` whose declared summary
`exTableFull` already has a non-empty column list, `lookup "obscore"` does
return the summary with no network request, but it does NOT store the summary
in the per-instance cache, so the claim as stated is false at this input. -/
theorem C1_counterexample :
    ¬ ((VOSITables.get_table exNetDown exVTFull "obscore").2.2 = [] ∧
       cacheLookup ((VOSITables.get_table exNetDown exVTFull "obscore").2.1).cache
         "obscore" = some exTableFull ∧
       (VOSITables.get_table exNetDown exVTFull "obscore").1 = .ok exTableFull) := by
  intro h
  have h2 := h.2.1
  revert h2
  decide

/-- C1 (amended): for every `VOSITables` instance and every declared,
not-yet-cached table name whose summary already has non-empty columns or
non-empty foreign keys, `lookup(name)` performs no network request, leaves the
per-instance cache unchanged (in particular it does not store the summary),
and returns the summary Table as-is. -/
theorem C1_complete_summary_no_fetch_no_cache
    (net : String → TransportResult TableSet) (s : VOSITables) (name : String)
    (table : VOSITable)
    (hc : cacheLookup s.cache name = none)
    (ht : s.vositables.get_table_by_name name = some table)
    (hne : ¬(table.columns = [] ∧ table.foreignkeys = [])) :
    VOSITables.get_table net s name = (.ok table, s, []) := by
  unfold VOSITables.get_table
  rw [hc, ht]
  dsimp only
  have hb : (table.columns.isEmpty && table.foreignkeys.isEmpty) = false := by
    by_contra hcon
    rw [Bool.not_eq_false, Bool.and_eq_true, List.isEmpty_iff, List.isEmpty_iff] at hcon
    exact hne hcon
  rw [hb]
  simp

/-- C1 witness: the amended claim at the concrete instance `exVTFull`. -/
theorem C1_witness :
    VOSITables.get_table exNetDown exVTFull "obscore" =
      (.ok exTableFull, exVTFull, []) :=
  C1_complete_summary_no_fetch_no_cache exNetDown exVTFull "obscore" exTableFull
    (by decide) (by decide) (by decide)

/-- C3: for every declared, not-yet-cached name whose summary has no columns
and no foreign keys, the first `lookup(name)` issues exactly one GET to
`{endpoint_url}/{name}`, parses the response as a single-table document,
caches the extracted table under `name` and returns it; a subsequent lookup of
the same name (under any network oracle) returns the cached table with zero
further requests. -/
theorem C3_hydration_once_then_cached
    (net net2 : String → TransportResult TableSet) (s : VOSITables)
    (name : String) (table t : VOSITable) (doc : TableSet)
    (hc : cacheLookup s.cache name = none)
    (ht : s.vositables.get_table_by_name name = some table)
    (hcols : table.columns = []) (hfks : table.foreignkeys = [])
    (hnet : net (s.endpoint_url ++ "/" ++ name) = .success doc)
    (hfirst : doc.get_first_table = some t) :
    VOSITables.get_table net s name =
        (.ok t, { s with cache := cacheInsert s.cache name t },
          [s.endpoint_url ++ "/" ++ name]) ∧
      VOSITables.get_table net2 { s with cache := cacheInsert s.cache name t }
          name =
        (.ok t, { s with cache := cacheInsert s.cache name t }, []) := by
  constructor
  · unfold VOSITables.get_table
    rw [hc, ht]
    dsimp only
    rw [hcols, hfks]
    simp only [List.isEmpty_nil, Bool.and_self, if_true]
    rw [hnet]
    dsimp only
    rw [hfirst]
  · unfold VOSITables.get_table
    dsimp only
    rw [cacheLookup_insert_self]

/-- C3 witness: the claim at the concrete shallow instance `exVTShallow`
under the oracle `exNetHydrate`. -/
theorem C3_witness :
    VOSITables.get_table exNetHydrate exVTShallow "obscore" =
        (.ok exTableHydrated,
          { exVTShallow with
              cache := cacheInsert exVTShallow.cache "obscore" exTableHydrated },
          ["http://example.org/tap/tables/obscore"]) ∧
      VOSITables.get_table exNetDown
          { exVTShallow with
              cache := cacheInsert exVTShallow.cache "obscore" exTableHydrated }
          "obscore" =
        (.ok exTableHydrated,
          { exVTShallow with
              cache := cacheInsert exVTShallow.cache "obscore" exTableHydrated },
          []) :=
  C3_hydration_once_then_cached exNetHydrate exNetDown exVTShallow "obscore"
    exTableShallow exTableHydrated ⟨[exTableHydrated]⟩ (by decide) (by decide)
    (by decide) (by decide) (by decide) (by decide)

/-- C6: `length()` always equals the table-set's own declared count, and no
sequence of `lookup`, `keys`, `values`, `items` calls (hydrations included)
changes the value returned by `length()`. -/
theorem C6_len_constant (net : String → TransportResult TableSet)
    (s : VOSITables) (ops : List VOSITables.TOp) :
    VOSITables.len (VOSITables.runOps net s ops) = s.vositables.ntables ∧
      VOSITables.len s = s.vositables.ntables := by
  constructor
  · unfold VOSITables.len
    rw [runOps_vositables]
  · rfl

/-- C7: `keys()` yields exactly the declared table names in the table-set's
declared order; its type is a pure read of the table-set (no network oracle,
no state returned), and when the declared names are distinct it yields each
exactly once. -/
theorem C7_keys_declared_order (s : VOSITables) :
    VOSITables.keys s = s.vositables.tables.map VOSITable.name ∧
      ((s.vositables.tables.map VOSITable.name).Nodup →
        (VOSITables.keys s).Nodup) := by
  have hk : VOSITables.keys s = s.vositables.tables.map VOSITable.name :=
    keysLoop_eq_map s.vositables.tables
  exact ⟨hk, fun h => hk ▸ h⟩

/-- C7 witness: the three-table instance `exVT3` yields its three names in
declared order, each exactly once. -/
theorem C7_witness :
    VOSITables.keys exVT3 = ["a", "b", "c"] ∧ (VOSITables.keys exVT3).Nodup :=
  ⟨(C7_keys_declared_order exVT3).1.trans (by decide),
   (C7_keys_declared_order exVT3).2 (by decide)⟩

/-- A capability whose standard-id starts with the VOSI tables prefix. -/
def exCapTables : Capability :=
  ⟨"ivo://ivoa.net/std/VOSI#tables-1.1",
    [⟨[⟨"http://example.org/tap/tables-int"⟩]⟩]⟩

/-- A capability with an unrelated standard-id. -/
def exCapOther : Capability := ⟨"ivo://ivoa.net/std/TAP", []⟩

/-- C2: the candidate tables-endpoint URLs are the access-url values of all
interfaces of the first capability whose standard-id starts with
`ivo://ivoa.net/std/VOSI#tables`, in declared order, and when no capability
matches they are exactly `{baseurl}/tables` followed by the sibling path; the
`tables` property requests exactly the prefix of that candidate list that the
fallback loop consumes. -/
theorem C2_tables_candidate_urls (caps : List Capability) (baseurl : String) :
    (∀ cap,
        caps.find?
            (fun c => strStartsWith c.standardid "ivo://ivoa.net/std/VOSI#tables") =
          some cap →
        tablesCandidates caps baseurl =
          (cap.interfaces.map Interface.accessurls).flatten.map AccessURL.value) ∧
      (caps.find?
            (fun c => strStartsWith c.standardid "ivo://ivoa.net/std/VOSI#tables") =
          none →
        tablesCandidates caps baseurl =
          [baseurl ++ "/tables", url_sibling baseurl "tables"]) ∧
      (∀ (netc : String → TransportResult (List Capability))
          (nett : String → TransportResult TableSet),
        (TablesMixin.tables netc nett ⟨baseurl, some caps, none⟩).2.2 =
          (tryUrls nett (tablesCandidates caps baseurl)).2) := by
  refine ⟨?_, ?_, ?_⟩
  · intro cap h
    unfold tablesCandidates
    rw [findTablesCapability_eq_find, h]
    dsimp only
    rw [chainAccessurls_eq_join]
  · intro h
    unfold tablesCandidates
    rw [findTablesCapability_eq_find, h]
  · intro netc nett
    unfold TablesMixin.tables
    dsimp only
    unfold CapabilityMixin.capabilities
    dsimp only
    rcases h : tryUrls nett (tablesCandidates caps baseurl) with ⟨r, log⟩
    cases r with
    | none => simp
    | some p =>
      rcases p with ⟨ts, u⟩
      simp

/-- C2 witness: with a matching capability in second position the candidates
are its interface access-urls; with no matching capability they are the two
convention URLs in order. -/
theorem C2_witness :
    tablesCandidates [exCapOther, exCapTables] "http://example.org/tap" =
        (exCapTables.interfaces.map Interface.accessurls).flatten.map
          AccessURL.value ∧
      tablesCandidates [exCapOther] "http://example.org/tap" =
        ["http://example.org/tap" ++ "/tables",
          url_sibling "http://example.org/tap" "tables"] :=
  ⟨(C2_tables_candidate_urls [exCapOther, exCapTables] "http://example.org/tap").1
      exCapTables (by decide),
   (C2_tables_candidate_urls [exCapOther] "http://example.org/tap").2.1
      (by decide)⟩

/-- C4: with an empty capabilities cache the property tries
`{baseurl}/capabilities` first and the sibling path second, stops at the first
candidate whose GET succeeds while suppressing the transport error of an
earlier candidate, and when both candidates fail transport-wise it raises
`DALServiceError("No working capabilities endpoint provided")` — the result is
that service error whatever the two transport exceptions were, so no
transport-level exception is surfaced directly. -/
theorem C4_capabilities_fallback
    (net : String → TransportResult (List Capability)) (baseurl : String) :
    (∀ caps, net (baseurl ++ "/capabilities") = .success caps →
        CapabilityMixin.capabilities net ⟨baseurl, none⟩ =
          (.ok caps, ⟨baseurl, some caps⟩, [baseurl ++ "/capabilities"])) ∧
      (∀ ex caps, net (baseurl ++ "/capabilities") = .failure ex →
          net (url_sibling baseurl "capabilities") = .success caps →
          CapabilityMixin.capabilities net ⟨baseurl, none⟩ =
            (.ok caps, ⟨baseurl, some caps⟩,
              [baseurl ++ "/capabilities", url_sibling baseurl "capabilities"])) ∧
      (∀ ex1 ex2, net (baseurl ++ "/capabilities") = .failure ex1 →
          net (url_sibling baseurl "capabilities") = .failure ex2 →
          CapabilityMixin.capabilities net ⟨baseurl, none⟩ =
            (.error (.serviceMsg "No working capabilities endpoint provided"),
              ⟨baseurl, none⟩,
              [baseurl ++ "/capabilities", url_sibling baseurl "capabilities"])) := by
  refine ⟨?_, ?_, ?_⟩
  · intro caps h1
    simp [CapabilityMixin.capabilities, tryUrls, h1]
  · intro ex caps h1 h2
    simp [CapabilityMixin.capabilities, tryUrls, h1, h2]
  · intro ex1 ex2 h1 h2
    simp [CapabilityMixin.capabilities, tryUrls, h1, h2]

/-- A capabilities network oracle on which every request fails. -/
def exNetCapaDown : String → TransportResult (List Capability) :=
  fun _ => .failure "connection refused"

/-- C4 witness: with both candidates failing, the property yields exactly the
"No working capabilities endpoint provided" service error. -/
theorem C4_witness :
    CapabilityMixin.capabilities exNetCapaDown ⟨"http://example.org/tap", none⟩ =
      (.error (.serviceMsg "No working capabilities endpoint provided"),
        ⟨"http://example.org/tap", none⟩,
        ["http://example.org/tap" ++ "/capabilities",
          url_sibling "http://example.org/tap" "capabilities"]) :=
  (C4_capabilities_fallback exNetCapaDown "http://example.org/tap").2.2
    "connection refused" "connection refused" rfl rfl

/-- An availability network oracle on which every request fails. -/
def exNetAvailDown : String → TransportResult Availability :=
  fun _ => .failure "boom"

/-- An `AvailabilityMixin` with nothing memoized yet. -/
def exAvailMixin : AvailabilityMixin := ⟨"http://example.org/tap", none⟩

/-- A parsed availability document. -/
def exAvail : Availability := ⟨true, some "2000-00-00T00:00:00Z"⟩

/-- An availability network oracle on which every request succeeds. -/
def exNetAvailUp : String → TransportResult Availability :=
  fun _ => .success exAvail

/-- C8: a transport failure on the availability fetch, or on a per-table
hydration fetch of a declared shallow summary, is surfaced as
`DALServiceError.from_except` wrapping the original exception and carrying
the exact URL that was requested, which is also the only URL requested. -/
theorem C8_transport_error_wrapped :
    (∀ (net : String → TransportResult Availability) (s : AvailabilityMixin)
        (ex : String),
        s.availability_cache = none →
        net (s.baseurl ++ "/availability") = .failure ex →
        AvailabilityMixin.availability net s =
          (.error (.fromExcept ex (s.baseurl ++ "/availability")), s,
            [s.baseurl ++ "/availability"])) ∧
      (∀ (net : String → TransportResult TableSet) (s : VOSITables)
          (name : String) (table : VOSITable) (ex : String),
          cacheLookup s.cache name = none →
          s.vositables.get_table_by_name name = some table →
          table.columns = [] → table.foreignkeys = [] →
          net (s.endpoint_url ++ "/" ++ name) = .failure ex →
          VOSITables.get_table net s name =
            (.error (.fromExcept ex (s.endpoint_url ++ "/" ++ name)), s,
              [s.endpoint_url ++ "/" ++ name])) :=
  ⟨fun net s ex hc hn => availability_uncached_failure net s ex hc hn,
   fun net s name table ex hc ht hcols hfks hn =>
     get_table_shallow_failure net s name table ex hc ht hcols hfks hn⟩

/-- C8 witness: the claim at a failing availability fetch and a failing
hydration fetch, each with its concrete URL. -/
theorem C8_witness :
    AvailabilityMixin.availability exNetAvailDown exAvailMixin =
        (.error (.fromExcept "boom" ("http://example.org/tap" ++ "/availability")),
          exAvailMixin, ["http://example.org/tap" ++ "/availability"]) ∧
      VOSITables.get_table exNetDown exVTShallow "obscore" =
        (.error (.fromExcept "connection refused"
            ("http://example.org/tap/tables" ++ "/" ++ "obscore")),
          exVTShallow, ["http://example.org/tap/tables" ++ "/" ++ "obscore"]) :=
  ⟨C8_transport_error_wrapped.1 exNetAvailDown exAvailMixin "boom" rfl rfl,
   C8_transport_error_wrapped.2 exNetDown exVTShallow "obscore" exTableShallow
     "connection refused" rfl (by decide) rfl rfl rfl⟩

/-- C9: when the availability fetch or a per-table hydration fetch fails with
a transport error, the failed call leaves the instance state unchanged (the
availability field stays unset; the cache gains no entry for the name), so a
subsequent access under a now-working oracle performs the fetch again and
succeeds. -/
theorem C9_failure_leaves_state_for_retry :
    (∀ (net net2 : String → TransportResult Availability)
        (s : AvailabilityMixin) (ex : String) (a : Availability),
        s.availability_cache = none →
        net (s.baseurl ++ "/availability") = .failure ex →
        ((AvailabilityMixin.availability net s).2.1 = s ∧
          (net2 (s.baseurl ++ "/availability") = .success a →
            AvailabilityMixin.availability net2
                (AvailabilityMixin.availability net s).2.1 =
              (.ok a, { s with availability_cache := some a },
                [s.baseurl ++ "/availability"])))) ∧
      (∀ (net net2 : String → TransportResult TableSet) (s : VOSITables)
          (name : String) (table t : VOSITable) (ex : String) (doc : TableSet),
          cacheLookup s.cache name = none →
          s.vositables.get_table_by_name name = some table →
          table.columns = [] → table.foreignkeys = [] →
          net (s.endpoint_url ++ "/" ++ name) = .failure ex →
          ((VOSITables.get_table net s name).2.1 = s ∧
            (net2 (s.endpoint_url ++ "/" ++ name) = .success doc →
              doc.get_first_table = some t →
              VOSITables.get_table net2 (VOSITables.get_table net s name).2.1
                  name =
                (.ok t, { s with cache := cacheInsert s.cache name t },
                  [s.endpoint_url ++ "/" ++ name])))) := by
  constructor
  · intro net net2 s ex a hc hn
    have hfail := availability_uncached_failure net s ex hc hn
    refine ⟨by rw [hfail], ?_⟩
    intro hn2
    rw [hfail]
    exact availability_uncached_success net2 s a hc hn2
  · intro net net2 s name table t ex doc hc ht hcols hfks hn
    have hfail := get_table_shallow_failure net s name table ex hc ht hcols hfks hn
    refine ⟨by rw [hfail], ?_⟩
    intro hn2 hfirst
    rw [hfail]
    exact get_table_shallow_success net2 s name table t doc hc ht hcols hfks hn2 hfirst

/-- C9 witness: a failed availability fetch and a failed hydration fetch leave
their states unchanged, and the retries under working oracles succeed. -/
theorem C9_witness :
    ((AvailabilityMixin.availability exNetAvailDown exAvailMixin).2.1 =
        exAvailMixin ∧
      AvailabilityMixin.availability exNetAvailUp
          (AvailabilityMixin.availability exNetAvailDown exAvailMixin).2.1 =
        (.ok exAvail, { exAvailMixin with availability_cache := some exAvail },
          ["http://example.org/tap" ++ "/availability"])) ∧
    ((VOSITables.get_table exNetDown exVTShallow "obscore").2.1 = exVTShallow ∧
      VOSITables.get_table exNetHydrate
          (VOSITables.get_table exNetDown exVTShallow "obscore").2.1 "obscore" =
        (.ok exTableHydrated,
          { exVTShallow with
              cache := cacheInsert exVTShallow.cache "obscore" exTableHydrated },
          ["http://example.org/tap/tables" ++ "/" ++ "obscore"])) := by
  have h1 := C9_failure_leaves_state_for_retry.1 exNetAvailDown exNetAvailUp
    exAvailMixin "boom" exAvail rfl rfl
  have h2 := C9_failure_leaves_state_for_retry.2 exNetDown exNetHydrate
    exVTShallow "obscore" exTableShallow exTableHydrated "connection refused"
    ⟨[exTableHydrated]⟩ rfl (by decide) rfl rfl rfl
  exact ⟨⟨h1.1, h1.2 rfl⟩, ⟨h2.1, h2.2 (by decide) rfl⟩⟩

/-- C10: when the capabilities list contains a capability whose standard-id
starts with the VOSI tables prefix but whose interfaces together hold zero
access URLs, the `tables` property raises
`DALServiceError("No working tables endpoint provided")` and its only
requests are those of the capability fetch itself — the convention fallback
URLs are never attempted. -/
theorem C10_matching_capability_without_urls
    (netc : String → TransportResult (List Capability))
    (nett : String → TransportResult TableSet) (s : TablesMixin)
    (caps : List Capability) (cap : Capability) (cs : CapabilityMixin)
    (clog : List String)
    (htc : s.tables_cache = none)
    (hcap : CapabilityMixin.capabilities netc ⟨s.baseurl, s.capabilities_cache⟩ =
      (.ok caps, cs, clog))
    (hfind : findTablesCapability caps = some cap)
    (hempty : chainAccessurls cap.interfaces = []) :
    TablesMixin.tables netc nett s =
      (.error (.serviceMsg "No working tables endpoint provided"),
        { s with capabilities_cache := cs.capabilities_cache }, clog) := by
  unfold TablesMixin.tables
  rw [htc]
  dsimp only
  rw [hcap]
  dsimp only
  have hcand : tablesCandidates caps s.baseurl = [] := by
    unfold tablesCandidates
    rw [hfind]
    dsimp only
    rw [hempty]
    rfl
  rw [hcand]
  simp [tryUrls]

/-- A matching tables capability whose one interface has no access URLs. -/
def exCapEmpty : Capability := ⟨"ivo://ivoa.net/std/VOSI#tables-1.1", [⟨[]⟩]⟩

/-- C10 witness: with `exCapEmpty` cached as the capability list, `tables`
raises the service error with zero requests. -/
theorem C10_witness :
    TablesMixin.tables exNetCapaDown exNetDown
        ⟨"http://example.org/tap", some [exCapEmpty], none⟩ =
      (.error (.serviceMsg "No working tables endpoint provided"),
        ⟨"http://example.org/tap", some [exCapEmpty], none⟩, []) :=
  C10_matching_capability_without_urls exNetCapaDown exNetDown
    ⟨"http://example.org/tap", some [exCapEmpty], none⟩ [exCapEmpty] exCapEmpty
    ⟨"http://example.org/tap", some [exCapEmpty]⟩ [] rfl rfl (by decide) rfl

/-- C5: each of `availability`, `capabilities` and `tables` is memoized: once
a first access succeeds with some value, every later access (under any
network oracle, repeated any number of times) returns that identical cached
value, leaves the state fixed, and issues zero requests. -/
theorem C5_properties_computed_once :
    (∀ (net net2 : String → TransportResult Availability)
        (s : AvailabilityMixin) (a : Availability) (s1 : AvailabilityMixin)
        (log : List String) (n : Nat),
        AvailabilityMixin.availability net s = (.ok a, s1, log) →
        (AvailabilityMixin.availability net2 s1 = (.ok a, s1, []) ∧
          accessRepeat (AvailabilityMixin.availability net2) s1 n =
            (List.replicate n (.ok a), s1, []))) ∧
      (∀ (net net2 : String → TransportResult (List Capability))
          (s : CapabilityMixin) (caps : List Capability) (s1 : CapabilityMixin)
          (log : List String) (n : Nat),
          CapabilityMixin.capabilities net s = (.ok caps, s1, log) →
          (CapabilityMixin.capabilities net2 s1 = (.ok caps, s1, []) ∧
            accessRepeat (CapabilityMixin.capabilities net2) s1 n =
              (List.replicate n (.ok caps), s1, []))) ∧
      (∀ (netc netc2 : String → TransportResult (List Capability))
          (nett nett2 : String → TransportResult TableSet) (s : TablesMixin)
          (v : VOSITables) (s1 : TablesMixin) (log : List String) (n : Nat),
          TablesMixin.tables netc nett s = (.ok v, s1, log) →
          (TablesMixin.tables netc2 nett2 s1 = (.ok v, s1, []) ∧
            accessRepeat (TablesMixin.tables netc2 nett2) s1 n =
              (List.replicate n (.ok v), s1, []))) := by
  refine ⟨?_, ?_, ?_⟩
  · intro net net2 s a s1 log n h
    have hidem := availability_ok_idem net net2 s a s1 log h
    exact ⟨hidem, accessRepeat_fixpoint _ s1 (a := a) hidem n⟩
  · intro net net2 s caps s1 log n h
    have hidem := capabilities_ok_idem net net2 s caps s1 log h
    exact ⟨hidem, accessRepeat_fixpoint _ s1 (a := caps) hidem n⟩
  · intro netc netc2 nett nett2 s v s1 log n h
    have hidem := tables_ok_idem netc netc2 nett nett2 s v s1 log h
    exact ⟨hidem, accessRepeat_fixpoint _ s1 (a := v) hidem n⟩

/-- A capabilities network oracle on which every request succeeds. -/
def exNetCapaUp : String → TransportResult (List Capability) :=
  fun _ => .success [exCapOther]

/-- A tables network oracle on which every request succeeds. -/
def exNetTabUp : String → TransportResult TableSet :=
  fun _ => .success ⟨[exTableShallow]⟩

/-- C5 witness: after a concrete successful first access of each property,
two further accesses return the identical value with zero requests. -/
theorem C5_witness :
    (AvailabilityMixin.availability exNetAvailUp
          ⟨"http://example.org/tap", some exAvail⟩ =
        (.ok exAvail, ⟨"http://example.org/tap", some exAvail⟩, []) ∧
      accessRepeat (AvailabilityMixin.availability exNetAvailUp)
          ⟨"http://example.org/tap", some exAvail⟩ 2 =
        (List.replicate 2 (.ok exAvail),
          ⟨"http://example.org/tap", some exAvail⟩, [])) ∧
    (CapabilityMixin.capabilities exNetCapaUp
          ⟨"http://example.org/tap", some [exCapOther]⟩ =
        (.ok [exCapOther], ⟨"http://example.org/tap", some [exCapOther]⟩, []) ∧
      accessRepeat (CapabilityMixin.capabilities exNetCapaUp)
          ⟨"http://example.org/tap", some [exCapOther]⟩ 2 =
        (List.replicate 2 (.ok [exCapOther]),
          ⟨"http://example.org/tap", some [exCapOther]⟩, [])) ∧
    (TablesMixin.tables exNetCapaUp exNetTabUp
          ⟨"http://example.org/tap", some [exCapOther],
            some ⟨⟨[exTableShallow]⟩, "http://example.org/tap" ++ "/tables", []⟩⟩ =
        (.ok ⟨⟨[exTableShallow]⟩, "http://example.org/tap" ++ "/tables", []⟩,
          ⟨"http://example.org/tap", some [exCapOther],
            some ⟨⟨[exTableShallow]⟩, "http://example.org/tap" ++ "/tables", []⟩⟩,
          []) ∧
      accessRepeat (TablesMixin.tables exNetCapaUp exNetTabUp)
          ⟨"http://example.org/tap", some [exCapOther],
            some ⟨⟨[exTableShallow]⟩, "http://example.org/tap" ++ "/tables", []⟩⟩ 2 =
        (List.replicate 2
            (.ok ⟨⟨[exTableShallow]⟩, "http://example.org/tap" ++ "/tables", []⟩),
          ⟨"http://example.org/tap", some [exCapOther],
            some ⟨⟨[exTableShallow]⟩, "http://example.org/tap" ++ "/tables", []⟩⟩,
          [])) :=
  ⟨C5_properties_computed_once.1 exNetAvailUp exNetAvailUp exAvailMixin exAvail
      ⟨"http://example.org/tap", some exAvail⟩
      ["http://example.org/tap" ++ "/availability"] 2 rfl,
   C5_properties_computed_once.2.1 exNetCapaUp exNetCapaUp
      ⟨"http://example.org/tap", none⟩ [exCapOther]
      ⟨"http://example.org/tap", some [exCapOther]⟩
      ["http://example.org/tap" ++ "/capabilities"] 2 rfl,
   C5_properties_computed_once.2.2 exNetCapaUp exNetCapaUp exNetTabUp exNetTabUp
      ⟨"http://example.org/tap", none, none⟩
      ⟨⟨[exTableShallow]⟩, "http://example.org/tap" ++ "/tables", []⟩
      ⟨"http://example.org/tap", some [exCapOther],
        some ⟨⟨[exTableShallow]⟩, "http://example.org/tap" ++ "/tables", []⟩⟩
      ["http://example.org/tap" ++ "/capabilities",
        "http://example.org/tap" ++ "/tables"] 2 rfl⟩

end PyvoDal
